import Mathlib

/-!
Verification of the step-flow execution model and the individual flow
scripts of the ml.school coursework repository (assignments ch2, a2-a10).

The flow step bodies are shallowly embedded from the Python sources.
The execution engine itself (scheduler, artifact store, retry supervisor)
is not part of the repository; where a property depends on it, the engine
is modelled from the specification (sections 4.2-4.4), and each such
definition says so in its doc comment.
-/

set_option maxRecDepth 4096

/-! ## Arithmetic chain flow (src/assigments/ch2/a2.py, ArithmeticFlow) -/

/-- The run-visible artifacts of ArithmeticFlow: the current number and the
history list of values. -/
structure ArithState where
  number : Int
  history : List Int
  deriving Repr, DecidableEq

namespace ArithmeticFlow

/-- Embeds ArithmeticFlow.start: number = 5, history = [number]. -/
def start : ArithState := { number := 5, history := [5] }

/-- Embeds ArithmeticFlow.add_step: number += 10; history.append(number). -/
def add_step (s : ArithState) : ArithState :=
  { number := s.number + 10, history := s.history ++ [s.number + 10] }

/-- Embeds ArithmeticFlow.subtract_step: number -= 3; history.append(number). -/
def subtract_step (s : ArithState) : ArithState :=
  { number := s.number - 3, history := s.history ++ [s.number - 3] }

/-- Embeds ArithmeticFlow.multiply_step: number *= 2; history.append(number). -/
def multiply_step (s : ArithState) : ArithState :=
  { number := s.number * 2, history := s.history ++ [s.number * 2] }

/-- The linear chain start -> add_step -> subtract_step -> multiply_step,
as wired by the self.next calls of the flow. -/
def afterMultiply : ArithState := multiply_step (subtract_step (add_step start))

end ArithmeticFlow

/-! ## Retry Supervisor (modelled from the spec, section 4.4)

The repository does not contain the retry engine; only @retry(times=3) on
RetryFlow.flaky_service (src/assigments/ch2/a5.py) uses it.  The model below
follows the specification: per-attempt state machine with attempts counted
from 1 up to maxAttempts, writes buffered per attempt and committed only on
success, and RetryExhaustedError that is fatal to the Run. -/

/-- One invocation of a step body: the artifact writes it buffered, whether
it succeeded, and its error message when it failed. -/
structure Attempt (σ : Type) where
  buffered : σ
  succeeded : Bool
  errMsg : String
  deriving Repr, DecidableEq

/-- Terminal outcome of supervised execution of one StepInstance:
either some attempt succeeded (its buffered writes are committed), or the
retry budget was exhausted (RetryExhaustedError, fatal to the Run). -/
inductive RetryOutcome (σ : Type) where
  | succeeded (attempt : Nat) (committed : σ)
  | retryExhausted (attempts : Nat) (lastErr : String)
  deriving Repr, DecidableEq

/-- Modelled from the spec: the Retry Supervisor loop.  `attempt` is the
number of the attempt about to run (attempts are numbered from 1) and the
second argument is the remaining attempt budget.  Returns the terminal
outcome together with the log of attempt numbers at which the body was
actually invoked. -/
def retryGo (body : Nat → Attempt σ) (attempt : Nat) : Nat → RetryOutcome σ × List Nat
  | 0 => (.retryExhausted (attempt - 1) "", [])
  | remaining + 1 =>
    let a := body attempt
    if a.succeeded then
      (.succeeded attempt a.buffered, [attempt])
    else if remaining = 0 then
      (.retryExhausted attempt a.errMsg, [attempt])
    else
      let r := retryGo body (attempt + 1) remaining
      (r.1, attempt :: r.2)

/-- Modelled from the spec: run a step body under the Retry Supervisor with
budget `maxAttempts` (a step with no retry policy has maxAttempts = 1). -/
def retryRun (body : Nat → Attempt σ) (maxAttempts : Nat) : RetryOutcome σ × List Nat :=
  retryGo body 1 maxAttempts

/-- Modelled from the spec: a RetryExhaustedError outcome is fatal to the
Run; a successful outcome is not. -/
def runFailsFatally : RetryOutcome σ × List Nat → Bool
  | (.retryExhausted _ _, _) => true
  | (.succeeded _ _, _) => false

/-- Modelled from the spec: the writes committed by the supervised step,
none when the retry budget was exhausted (failed attempts commit nothing). -/
def committedWrites : RetryOutcome σ → Option σ
  | .succeeded _ w => some w
  | .retryExhausted _ _ => none

namespace RetryFlow

/-- Embeds the failing branch of RetryFlow.flaky_service
(src/assigments/ch2/a5.py): no artifact written, ServiceError raised with
message "External service failed".  Used for the always-failing case. -/
def flakyFailAttempt : Nat → Attempt (Option String) := fun _ =>
  { buffered := none, succeeded := false, errMsg := "External service failed" }

/-- Embeds a run of RetryFlow.flaky_service in which the service fails on
attempts 1 and 2 and succeeds on attempt 3, writing result = "SUCCESS". -/
def flakyEventualAttempt : Nat → Attempt (Option String) := fun a =>
  if a < 3 then { buffered := none, succeeded := false, errMsg := "External service failed" }
  else { buffered := some "SUCCESS", succeeded := true, errMsg := "" }

end RetryFlow

/-! ### Retry supervisor lemmas -/

/-- One-step unfolding of the supervisor loop. -/
theorem retryGo_succ_eq (body : Nat → Attempt σ) (attempt remaining : Nat) :
    retryGo body attempt (remaining + 1) =
      (if (body attempt).succeeded then
        (.succeeded attempt (body attempt).buffered, [attempt])
      else if remaining = 0 then
        (.retryExhausted attempt (body attempt).errMsg, [attempt])
      else
        ((retryGo body (attempt + 1) remaining).1,
          attempt :: (retryGo body (attempt + 1) remaining).2)) := rfl

/-- An always-failing body: starting at any attempt number with budget n+1,
the supervisor invokes the body at attempts attempt, ..., attempt+n and ends
with RetryExhaustedError after the last of them. -/
theorem retryGo_always_fails (body : Nat → Attempt σ)
    (hfail : ∀ a, (body a).succeeded = false) (n : Nat) :
    ∀ attempt, retryGo body attempt (n + 1) =
      (.retryExhausted (attempt + n) (body (attempt + n)).errMsg,
       List.range' attempt (n + 1)) := by
  induction n with
  | zero =>
    intro attempt
    simp [retryGo_succ_eq, hfail attempt, List.range']
  | succ m ih =>
    intro attempt
    have e1 : attempt + 1 + m = attempt + (m + 1) := by omega
    rw [retryGo_succ_eq]
    simp only [hfail attempt, Bool.false_eq_true, if_false,
      if_neg (by omega : ¬(m + 1 = 0)), ih (attempt + 1), e1, List.range'_succ]

/-- A body that fails strictly before attempt M and succeeds at attempt M:
starting at attempt k ≤ M with the exactly-sufficient budget, the supervisor
invokes attempts k, ..., M and commits the M-th attempt's writes. -/
theorem retryGo_eventually_succeeds (body : Nat → Attempt σ) (M : Nat)
    (hfail : ∀ a, a < M → (body a).succeeded = false)
    (hsucc : (body M).succeeded = true) (n : Nat) :
    ∀ k, k + n = M → retryGo body k (n + 1) =
      (.succeeded M (body M).buffered, List.range' k (n + 1)) := by
  induction n with
  | zero =>
    intro k hk
    have hk' : k = M := by omega
    subst hk'
    simp [retryGo_succ_eq, hsucc, List.range']
  | succ m ih =>
    intro k hk
    have hklt : k < M := by omega
    rw [retryGo_succ_eq]
    simp only [hfail k hklt, Bool.false_eq_true, if_false,
      if_neg (by omega : ¬(m + 1 = 0)), ih (k + 1) (by omega), List.range'_succ]

/-! ## Fan-out / join scheduling (modelled from the spec, section 4.3)

The scheduler itself is not in the repository.  Following the spec: a
foreach (or split) transition creates one branch StepInstance per item (per
declared branch), the branches may execute in any physical order, and the
join body observes the resulting bindings in source/declaration order
regardless of completion order.  The physical completion order is modelled
as a list of branch indices; the join reassembles inputs by index. -/

/-- Modelled from the spec: execute the branch bodies in the given physical
order, recording (branch index, produced binding) completion records. -/
def fanOutExec {α σ : Type} (body : α → σ) (items : List α) (order : List Nat) :
    List (Nat × σ) :=
  order.filterMap fun i => items[i]?.map fun x => (i, body x)

/-- Modelled from the spec: the join body's input collection, reassembled
from the completion records in source/declaration index order 0, ..., k-1. -/
def joinInputs {σ : Type} (k : Nat) (recs : List (Nat × σ)) : List (Option σ) :=
  (List.range k).map fun i => recs.lookup i

/-- Modelled from the spec: the collection a foreach join body iterates
over, in source order (every branch of a completed fan-out is present). -/
def foreachJoin {α σ : Type} (body : α → σ) (items : List α) (order : List Nat) :
    List σ :=
  (joinInputs items.length (fanOutExec body items order)).filterMap id

/-- Modelled from the spec: a split fan-out runs each declared branch body
on the pre-split state, in the given physical order. -/
def splitExec {σ τ : Type} (branches : List (σ → τ)) (base : σ) (order : List Nat) :
    List (Nat × τ) :=
  fanOutExec (fun b => b base) branches order

/-- Modelled from the spec: the join input collection of a split, in branch
declaration order. -/
def splitJoinInputs {σ τ : Type} (branches : List (σ → τ)) (base : σ)
    (order : List Nat) : List (Option τ) :=
  joinInputs branches.length (splitExec branches base order)

/-! ### Fan-out lemmas -/

/-- Scheduling an in-range branch index prepends its completion record. -/
theorem fanOutExec_cons_some {α σ : Type} (body : α → σ) (items : List α)
    (j : Nat) (rest : List Nat) (x : α) (hx : items[j]? = some x) :
    fanOutExec body items (j :: rest) = (j, body x) :: fanOutExec body items rest := by
  simp [fanOutExec, List.filterMap_cons, hx]

/-- Scheduling an out-of-range branch index records nothing. -/
theorem fanOutExec_cons_none {α σ : Type} (body : α → σ) (items : List α)
    (j : Nat) (rest : List Nat) (hx : items[j]? = none) :
    fanOutExec body items (j :: rest) = fanOutExec body items rest := by
  simp [fanOutExec, List.filterMap_cons, hx]

/-- The completion record for branch i holds the binding computed by the
body on item i, however the physical order interleaves the branches. -/
theorem lookup_fanOutExec {α σ : Type} (body : α → σ) (items : List α)
    (order : List Nat) (i : Nat) (hi : i < items.length) (hmem : i ∈ order) :
    (fanOutExec body items order).lookup i = items[i]?.map body := by
  induction order with
  | nil => cases hmem
  | cons j rest ih =>
    by_cases hij : i = j
    · subst hij
      have hx : items[i]? = some items[i] := List.getElem?_eq_getElem hi
      rw [fanOutExec_cons_some body items i rest _ hx]
      simp [List.lookup, hx]
    · have hmem' : i ∈ rest := by
        rcases List.mem_cons.mp hmem with h | h
        · exact absurd h hij
        · exact h
      cases hj : items[j]? with
      | none =>
        rw [fanOutExec_cons_none body items j rest hj]
        exact ih hmem'
      | some x =>
        rw [fanOutExec_cons_some body items j rest x hj]
        have hne : (i == j) = false := beq_eq_false_iff_ne.mpr hij
        simpa [List.lookup, hne] using ih hmem'

/-- When the physical order covers every branch index, the join input
collection is exactly the per-item bindings, in source order. -/
theorem joinInputs_fanOutExec {α σ : Type} (body : α → σ) (items : List α)
    (order : List Nat) (hcover : ∀ i < items.length, i ∈ order) :
    joinInputs items.length (fanOutExec body items order) =
      items.map fun x => some (body x) := by
  apply List.ext_getElem
  · simp [joinInputs]
  · intro i h1 h2
    have hi : i < items.length := by simpa [joinInputs] using h1
    have hlk := lookup_fanOutExec body items order i hi (hcover i hi)
    have hx : items[i]? = some items[i] := List.getElem?_eq_getElem hi
    simp [joinInputs, List.getElem_map, List.getElem_range, hlk, hx]

/-- When every scheduled index is in range, each order entry contributes
exactly one completion record. -/
theorem fanOutExec_length_eq_order {α σ : Type} (body : α → σ) (items : List α) :
    ∀ order : List Nat, (∀ i ∈ order, i < items.length) →
      (fanOutExec body items order).length = order.length := by
  intro order
  induction order with
  | nil => intro _; rfl
  | cons j rest ih =>
    intro hmem
    have hj : j < items.length := hmem j (by simp)
    have hx : items[j]? = some items[j] := List.getElem?_eq_getElem hj
    rw [fanOutExec_cons_some body items j rest _ hx]
    simp [ih (fun i hi => hmem i (by simp [hi]))]

/-- When the physical order is a permutation of the branch indices, exactly
one branch instance per item is created. -/
theorem fanOutExec_length {α σ : Type} (body : α → σ) (items : List α)
    (order : List Nat) (hperm : order.Perm (List.range items.length)) :
    (fanOutExec body items order).length = items.length := by
  have hmem : ∀ i ∈ order, i < items.length := by
    intro i hi
    simpa [List.mem_range] using hperm.mem_iff.mp hi
  rw [fanOutExec_length_eq_order body items order hmem, hperm.length_eq,
    List.length_range]

/-- A covering physical order makes the foreach join collection equal to
mapping the body over the source items, in source order. -/
theorem foreachJoin_eq_map {α σ : Type} (body : α → σ) (items : List α)
    (order : List Nat) (hcover : ∀ i < items.length, i ∈ order) :
    foreachJoin body items order = items.map body := by
  rw [foreachJoin, joinInputs_fanOutExec body items order hcover]
  have h : ∀ l : List α, (l.map fun x => some (body x)).filterMap id = l.map body := by
    intro l
    induction l with
    | nil => rfl
    | cons x xs ih => simp [List.filterMap_cons] at ih ⊢; exact ih
  exact h items

/-- A permutation order covers every index. -/
theorem perm_range_cover (order : List Nat) (n : Nat)
    (hperm : order.Perm (List.range n)) : ∀ i < n, i ∈ order := by
  intro i hi
  exact hperm.mem_iff.mpr (List.mem_range.mpr hi)

/-! ## Parallel branch/join flow (src/assigments/ch2/a3.py, ParallelOpsFlow) -/

/-- Per-instance artifact bindings, newest write first (Python attribute
assignment shadows the older value). -/
abbrev Store := List (String × Int)

namespace ParallelOpsFlow

/-- Embeds ParallelOpsFlow.start: artifact = 10, then split to
add_constant and multiply_constant. -/
def startStore : Store := [("artifact", 10)]

/-- Embeds ParallelOpsFlow.add_constant: constant = 5;
result = artifact + constant.  none models an AttributeError on a read of
an unset artifact (never hit in the actual flow). -/
def add_constant (s : Store) : Option Store := do
  let s : Store := ("constant", (5 : Int)) :: s
  let a ← s.lookup "artifact"
  let c ← s.lookup "constant"
  some (("result", a + c) :: s)

/-- Embeds ParallelOpsFlow.multiply_constant: constant = 2;
result = artifact * constant. -/
def multiply_constant (s : Store) : Option Store := do
  let s : Store := ("constant", (2 : Int)) :: s
  let a ← s.lookup "artifact"
  let c ← s.lookup "constant"
  some (("result", a * c) :: s)

/-- The branches of the split in start, in declaration order
(self.next(self.add_constant, self.multiply_constant)). -/
def branches : List (Store → Option Store) := [add_constant, multiply_constant]

/-- Embeds ParallelOpsFlow.join: add_result = inputs.add_constant.result,
multiply_result = inputs.multiply_constant.result,
final_sum = add_result + multiply_result. -/
def join (addSt multSt : Store) : Option (Int × Int × Int) := do
  let a ← addSt.lookup "result"
  let m ← multSt.lookup "result"
  some (a, m, a + m)

end ParallelOpsFlow

/-! ## Branch overlay isolation (modelled from the spec, section 4.2)

The Artifact Store's copy-on-write overlays are engine code that is not in
the repository.  Model: during a split, branch instance i owns overlay i
over the immutable pre-split base; a read by instance i resolves through
overlay i and then the base only, never through a sibling's overlay. -/

/-- Modelled from the spec: the in-flight state of a split fan-out, the
shared immutable base plus one private overlay per branch instance. -/
structure SplitState where
  base : Store
  overlays : List Store
  deriving Repr, DecidableEq

/-- Modelled from the spec: a read by branch instance i resolves through
its own overlay, then the pre-split base. -/
def readArt (st : SplitState) (i : Nat) (k : String) : Option Int :=
  match (st.overlays.getD i []).lookup k with
  | some v => some v
  | none => st.base.lookup k

/-- Modelled from the spec: a write by branch instance i goes to its own
overlay only. -/
def writeArt (st : SplitState) (i : Nat) (k : String) (v : Int) : SplitState :=
  { base := st.base, overlays := st.overlays.set i ((k, v) :: st.overlays.getD i []) }

namespace ParallelOpsFlow

/-- The split state right after start: base holds artifact = 10 and each of
the two branch instances has an empty overlay. -/
def initSplit : SplitState := { base := startStore, overlays := [[], []] }

/-- ParallelOpsFlow.add_constant executed as branch instance 0 against the
overlay store: each attribute assignment is a write to overlay 0, each
attribute read resolves through overlay 0 and the base. -/
def runAddBranch (st : SplitState) : Option SplitState := do
  let st := writeArt st 0 "constant" 5
  let a ← readArt st 0 "artifact"
  let c ← readArt st 0 "constant"
  some (writeArt st 0 "result" (a + c))

/-- ParallelOpsFlow.multiply_constant executed as branch instance 1 against
the overlay store. -/
def runMultiplyBranch (st : SplitState) : Option SplitState := do
  let st := writeArt st 1 "constant" 2
  let a ← readArt st 1 "artifact"
  let c ← readArt st 1 "constant"
  some (writeArt st 1 "result" (a * c))

end ParallelOpsFlow

/-! ## Python string primitives

The flows use str.strip(), str.split(","), int() and str.upper().  These
are embedded over the string's character list, following the Python
semantics used by the flows (int() is modelled on optionally signed decimal
digit strings, the only shape the flows feed it after stripping). -/

/-- Python whitespace as removed by str.strip(): space, tab, newline,
carriage return, vertical tab, form feed. -/
def pyIsSpace (c : Char) : Bool :=
  c.toNat = 32 ∨ c.toNat = 9 ∨ c.toNat = 10 ∨ c.toNat = 13 ∨
    c.toNat = 11 ∨ c.toNat = 12

/-- Python str.strip(): drop leading and trailing whitespace. -/
def pyStrip (s : String) : String :=
  ⟨((s.data.dropWhile pyIsSpace).reverse.dropWhile pyIsSpace).reverse⟩

/-- Helper of pySplit: split a character list at the separator,
accumulating the current field in reverse. -/
def splitCharAux (sep : Char) : List Char → List Char → List String
  | [], acc => [⟨acc.reverse⟩]
  | c :: rest, acc =>
    if c = sep then ⟨acc.reverse⟩ :: splitCharAux sep rest []
    else splitCharAux sep rest (c :: acc)

/-- Python str.split(sep) for a one-character separator. -/
def pySplit (s : String) (sep : Char) : List String := splitCharAux sep s.data []

/-- Decimal digit characters to the number they denote. -/
def digitsToNat (ds : List Char) : Nat :=
  ds.foldl (fun a c => a * 10 + (c.toNat - 48)) 0

/-- Python int(str) on an already-stripped string: an optional sign
followed by at least one decimal digit; none models the ValueError raised
on any other shape. -/
def pyInt? (s : String) : Option Int :=
  match s.data with
  | [] => none
  | '-' :: ds =>
    if ds ≠ [] ∧ ds.all Char.isDigit then some (-(digitsToNat ds : Nat)) else none
  | '+' :: ds =>
    if ds ≠ [] ∧ ds.all Char.isDigit then some ((digitsToNat ds : Nat)) else none
  | ds =>
    if ds.all Char.isDigit then some ((digitsToNat ds : Nat)) else none

/-- Python str.upper(), per character. -/
def pyUpper (s : String) : String := ⟨s.data.map Char.toUpper⟩

/-! ## Foreach squaring flow (src/assigments/ch2/a4.py, SquareNumbersFlow) -/

namespace SquareNumbersFlow

/-- The default value of the numbers Parameter. -/
def numbersDefault : String := "1,2,3,4,5"

/-- Embeds the parsing in SquareNumbersFlow.start:
[int(n.strip()) for n in self.numbers.split(",")].  none models the
ValueError Python int() raises on a non-integer element. -/
def numberListOf (numbers : String) : Option (List Int) :=
  (pySplit numbers ',').mapM fun n => pyInt? (pyStrip n)

/-- Embeds SquareNumbersFlow.square: input_number = self.input;
squared_result = input_number ** 2.  Returns the pair
(input_number, squared_result) bound by the branch. -/
def square (x : Int) : Int × Int := (x, x * x)

/-- Embeds SquareNumbersFlow.join applied to the ordered join input
collection: squared_numbers, original_numbers and squared_sum. -/
def joinStep (ins : List (Int × Int)) : List Int × List Int × Int :=
  (ins.map Prod.snd, ins.map Prod.fst, (ins.map Prod.snd).sum)

end SquareNumbersFlow

/-! ## CSV processing flow (src/assigments/ch2/a8.py, CSVProcessingFlow) -/

/-- A Python exception as classified by the except clauses of
CSVProcessingFlow.process_csv: ValueError, csv.Error, or anything else. -/
inductive PyError where
  | valueError (msg : String)
  | csvError (msg : String)
  | otherError (msg : String)
  deriving Repr, DecidableEq

namespace CSVProcessingFlow

/-- The artifacts CSVProcessingFlow.process_csv may set on the run; none
means the attribute was never assigned.  error_message itself distinguishes
a caught error (some msg) from the else-branch assignment of None (none);
process_csv always assigns it. -/
structure CsvState where
  column_count : Option Nat
  column_names : Option (List String)
  row_count : Option Nat
  inconsistent_rows : Option Nat
  min_cols : Option Nat
  max_cols : Option Nat
  data_quality_issues : Option Bool
  error_message : Option String
  deriving Repr, DecidableEq

/-- The state before process_csv assigns anything. -/
def emptyCsvState : CsvState :=
  { column_count := none, column_names := none, row_count := none,
    inconsistent_rows := none, min_cols := none, max_cols := none,
    data_quality_issues := none, error_message := none }

/-- Embeds CSVProcessingFlow._validate_csv_content: raises
ValueError("The CSV file is empty") when the stripped content is empty
(Python: if not csv_content.strip()). -/
def validate_csv_content (csv_content : String) : Option PyError :=
  if pyStrip csv_content = "" then some (.valueError "The CSV file is empty")
  else none

/-- The row loop of _check_rows_consistency, with the accumulators
row_count, inconsistent_rows, min_cols and max_cols exactly as in the
source: each row bumps row_count, bumps inconsistent_rows when its length
differs from column_count, and folds its length into min_cols/max_cols. -/
def checkRowsLoop (column_count : Nat) :
    List (List String) → Nat → Nat → Nat → Nat → Nat × Nat × Nat × Nat
  | [], row_count, inconsistent_rows, min_cols, max_cols =>
    (row_count, inconsistent_rows, min_cols, max_cols)
  | row :: rest, row_count, inconsistent_rows, min_cols, max_cols =>
    let row_len := row.length
    checkRowsLoop column_count rest (row_count + 1)
      (if row_len ≠ column_count then inconsistent_rows + 1 else inconsistent_rows)
      (min min_cols row_len) (max max_cols row_len)

/-- Embeds CSVProcessingFlow._check_rows_consistency: column_count is the
header length, and the loop starts with row_count = 0,
inconsistent_rows = 0 and min_cols = max_cols = column_count. -/
def check_rows_consistency (header : List String) (rows : List (List String)) :
    Nat × Nat × Nat × Nat :=
  checkRowsLoop header.length rows 0 0 header.length header.length

/-- Embeds the try block of CSVProcessingFlow.process_csv.  csv.reader is
an external library, abstracted as parseCsv (the list of parsed rows, the
first being the header).  Returns the artifacts assigned so far and the
exception, if one was raised: validation raises ValueError on empty
content; next(reader) on a rowless reader raises StopIteration, re-raised
as ValueError("CSV file contains a header but no data rows"). -/
def process_csv_try (parseCsv : String → List (List String)) (csv_content : String) :
    CsvState × Option PyError :=
  match validate_csv_content csv_content with
  | some e => (emptyCsvState, some e)
  | none =>
    match parseCsv csv_content with
    | [] =>
      (emptyCsvState, some (.valueError "CSV file contains a header but no data rows"))
    | header :: rows =>
      let r := check_rows_consistency header rows
      ({ column_count := some header.length, column_names := some header,
         row_count := some r.1, inconsistent_rows := some r.2.1,
         min_cols := some r.2.2.1, max_cols := some r.2.2.2,
         data_quality_issues := some (decide (0 < r.2.1)),
         error_message := none }, none)

/-- Embeds CSVProcessingFlow.process_csv: the try block above, with except
clauses that catch csv.Error (error_message = "Failed to parse CSV: ..."),
ValueError (error_message = str(e)) and every other Exception
(error_message = "Unexpected error processing CSV: ..."), and an else
branch setting error_message = None.  self.next(self.end) stands after the
try statement, so the body never re-raises: the second component, the
error propagated to the engine, is always none. -/
def process_csv (parseCsv : String → List (List String)) (csv_content : String) :
    CsvState × Option PyError :=
  let r := process_csv_try parseCsv csv_content
  match r.2 with
  | some (.csvError e) =>
    ({ r.1 with error_message := some ("Failed to parse CSV: " ++ e) }, none)
  | some (.valueError e) =>
    ({ r.1 with error_message := some e }, none)
  | some (.otherError e) =>
    ({ r.1 with error_message := some ("Unexpected error processing CSV: " ++ e) }, none)
  | none =>
    ({ r.1 with error_message := none }, none)

/-- The Run ends failed exactly when the step body propagates an error to
the engine (spec section 6: a step body may fail with a validation error
that the engine surfaces to the Run's failure state). -/
def csvRunFailed (r : CsvState × Option PyError) : Bool := r.2.isSome

end CSVProcessingFlow

/-! ## Student processing flow (src/assigments/ch2/a9.py, StudentProcessingFlow) -/

/-- A student record: name and score. -/
structure Student where
  name : String
  score : Int
  deriving Repr, DecidableEq

namespace StudentProcessingFlow

/-- Embeds StudentProcessingFlow.process_student: student = dict(input)
(a fresh copy of the record), then in sequence the name is upper-cased,
the score is increased by 10, and the score is clamped with
min(score, 100). -/
def process_student (input : Student) : Student :=
  let student : Student := { name := input.name, score := input.score }
  let student : Student := { student with name := pyUpper student.name }
  let student : Student := { student with score := student.score + 10 }
  { student with score := min student.score 100 }

end StudentProcessingFlow

/-! ## Prompt response flow (src/assigments/ch2/a10.py, PromptResponseFlow) -/

/-- JSON values, as carried by the generative-text HTTP endpoint. -/
inductive Json where
  | null
  | bool (b : Bool)
  | num (n : Int)
  | str (s : String)
  | arr (elems : List Json)
  | obj (fields : List (String × Json))

/-- The outcome of the requests.post call in generate_response: a transport
error (a requests exception: timeout, connection failure, ...) or a
response bearing a status code and a JSON payload. -/
inductive HttpResult where
  | transportError (msg : String)
  | response (status : Nat) (payload : Json)

/-- What a step body evaluation does: return a value, or raise an error
that propagates to the engine's failure handling. -/
inductive StepResult (α : Type) where
  | ok (v : α)
  | raised (err : String)

namespace PromptResponseFlow

/-- Embeds requests.Response.raise_for_status, which raises HTTPError
exactly for client-error (4xx) and server-error (5xx) status codes. -/
def raiseForStatus (status : Nat) : Bool :=
  decide (400 ≤ status ∧ status < 600)

/-- Embeds PromptResponseFlow.generate_response after the POST returns:
response.raise_for_status(); response_data = payload.get("response", "");
response = json.loads(response_data)["answer"].  json.loads is an external
library, abstracted as loads (none models text that is not valid JSON, on
which json.loads raises).  The step has no try/except, so every raise
propagates: a transport error, HTTPError from raise_for_status, a non-dict
payload (AttributeError on .get), a non-string response field (TypeError
inside json.loads), invalid JSON text (JSONDecodeError), a non-object
parse result (TypeError on ["answer"]) or a missing answer key
(KeyError). -/
def generate_response (loads : String → Option Json) : HttpResult → StepResult Json
  | .transportError msg => .raised msg
  | .response status payload =>
    if raiseForStatus status then .raised "HTTPError"
    else
      match payload with
      | .obj fields =>
        match (fields.lookup "response").getD (.str "") with
        | .str response_data =>
          match loads response_data with
          | none => .raised "JSONDecodeError"
          | some (.obj parsed) =>
            match parsed.lookup "answer" with
            | some answer => .ok answer
            | none => .raised "KeyError"
          | some _ => .raised "TypeError"
        | _ => .raised "TypeError"
      | _ => .raised "AttributeError"

end PromptResponseFlow

/-! ### Row-consistency and overlay lemmas -/

/-- The row loop adds the row count, the count of inconsistent rows, and
folds min/max of the row lengths into its accumulators. -/
theorem checkRowsLoop_spec (C : Nat) (rows : List (List String)) :
    ∀ rc ir mn mx, CSVProcessingFlow.checkRowsLoop C rows rc ir mn mx =
      (rc + rows.length,
       ir + rows.countP (fun r => decide (r.length ≠ C)),
       (rows.map List.length).foldl min mn,
       (rows.map List.length).foldl max mx) := by
  induction rows with
  | nil =>
    intro rc ir mn mx
    simp [CSVProcessingFlow.checkRowsLoop]
  | cons r rest ih =>
    intro rc ir mn mx
    simp only [CSVProcessingFlow.checkRowsLoop]
    rw [ih]
    simp only [List.countP_cons, List.map_cons, List.foldl_cons, Prod.mk.injEq,
      List.length_cons, decide_eq_true_eq]
    by_cases h : r.length = C
    · simp [h]
      omega
    · simp [h]
      omega

/-- Folding min never exceeds the initial accumulator. -/
theorem foldl_min_le_init (l : List Nat) : ∀ a : Nat, l.foldl min a ≤ a := by
  induction l with
  | nil => intro a; simp
  | cons x xs ih =>
    intro a
    exact le_trans (ih (min a x)) (min_le_left a x)

/-- Folding min is a lower bound of every list element. -/
theorem foldl_min_le_mem (l : List Nat) : ∀ a x, x ∈ l → l.foldl min a ≤ x := by
  induction l with
  | nil =>
    intro a x hx
    cases hx
  | cons y ys ih =>
    intro a x hx
    rcases List.mem_cons.mp hx with h | h
    · subst h
      exact le_trans (foldl_min_le_init ys (min a x)) (min_le_right a x)
    · exact ih (min a y) x h

/-- Folding max is at least the initial accumulator. -/
theorem le_foldl_max_init (l : List Nat) : ∀ a : Nat, a ≤ l.foldl max a := by
  induction l with
  | nil => intro a; simp
  | cons x xs ih =>
    intro a
    exact le_trans (le_max_left a x) (ih (max a x))

/-- Folding max is an upper bound of every list element. -/
theorem le_foldl_max_mem (l : List Nat) : ∀ a x, x ∈ l → x ≤ l.foldl max a := by
  induction l with
  | nil =>
    intro a x hx
    cases hx
  | cons y ys ih =>
    intro a x hx
    rcases List.mem_cons.mp hx with h | h
    · subst h
      exact le_trans (le_max_right a x) (le_foldl_max_init ys (max a x))
    · exact ih (max a y) x h

/-- A write into one branch's overlay is invisible to every read of a
sibling branch instance. -/
theorem readArt_after_sibling_write (st : SplitState) (i j : Nat) (k kr : String)
    (v : Int) (hne : j ≠ i) :
    readArt (writeArt st j k v) i kr = readArt st i kr := by
  have hov : (writeArt st j k v).overlays.getD i [] = st.overlays.getD i [] := by
    show (st.overlays.set j ((k, v) :: st.overlays.getD j [])).getD i [] =
      st.overlays.getD i []
    simp only [List.getD_eq_getElem?_getD]
    rw [List.getElem?_set_ne hne]
  have hb : (writeArt st j k v).base = st.base := rfl
  unfold readArt
  rw [hov, hb]

/-! ## Claim theorems -/

/-- C3: Running ArithmeticFlow: start sets number = 5 and history = [5];
the three subsequent linear steps add 10, subtract 3 and multiply by 2, in
that order, each appending the new value to history; after the multiply
step, number = 24 and history = [5, 15, 12, 24]. -/
theorem arithmetic_chain_end_to_end :
    ArithmeticFlow.start = { number := 5, history := [5] } ∧
    ArithmeticFlow.add_step ArithmeticFlow.start =
      { number := 15, history := [5, 15] } ∧
    ArithmeticFlow.subtract_step (ArithmeticFlow.add_step ArithmeticFlow.start) =
      { number := 12, history := [5, 15, 12] } ∧
    ArithmeticFlow.afterMultiply.number = 24 ∧
    ArithmeticFlow.afterMultiply.history = [5, 15, 12, 24] := by
  refine ⟨rfl, ?_, ?_, ?_, ?_⟩ <;> decide

/-- C1: a step whose retry budget is maxAttempts = M (M ≥ 1; a step with
no retry policy has M = 1) and whose body raises on every attempt is
executed exactly M times, at attempts 1, ..., M — so no (M+1)-th attempt
occurs — commits nothing, and the Run then fails fatally with
RetryExhaustedError.  The witness instantiates this at the always-failing
case of RetryFlow.flaky_service under its @retry budget of 3 attempts. -/
theorem retry_always_failing_step_exhausts_budget (σ : Type)
    (body : Nat → Attempt σ) (M : Nat) (hM : 1 ≤ M)
    (hfail : ∀ a, (body a).succeeded = false) :
    retryRun body M = (.retryExhausted M (body M).errMsg, List.range' 1 M) ∧
    (retryRun body M).2.length = M ∧
    (M + 1) ∉ (retryRun body M).2 ∧
    runFailsFatally (retryRun body M) = true ∧
    committedWrites (retryRun body M).1 = none := by
  obtain ⟨n, rfl⟩ : ∃ n, M = n + 1 := ⟨M - 1, by omega⟩
  have h : retryRun body (n + 1) =
      (.retryExhausted (1 + n) (body (1 + n)).errMsg, List.range' 1 (n + 1)) :=
    retryGo_always_fails body hfail n 1
  have e1 : 1 + n = n + 1 := by omega
  rw [e1] at h
  refine ⟨h, ?_, ?_, ?_, ?_⟩
  · rw [h]
    exact List.length_range' 1 1 (n + 1)
  · intro hmem
    rw [h] at hmem
    obtain ⟨i, hi, e⟩ := List.mem_range'.mp hmem
    omega
  · rw [h]
    rfl
  · rw [h]
    rfl

/-- C1 witness: the always-failing flaky_service body under budget 3 is
invoked at attempts 1, 2, 3 only and the Run fails with
RetryExhaustedError carrying the ServiceError message. -/
theorem retry_always_failing_step_exhausts_budget_witness :
    retryRun RetryFlow.flakyFailAttempt 3 =
      (.retryExhausted 3 "External service failed", [1, 2, 3]) ∧
    (retryRun RetryFlow.flakyFailAttempt 3).2.length = 3 ∧
    (4 : Nat) ∉ (retryRun RetryFlow.flakyFailAttempt 3).2 ∧
    runFailsFatally (retryRun RetryFlow.flakyFailAttempt 3) = true := by
  have h := retry_always_failing_step_exhausts_budget (Option String)
    RetryFlow.flakyFailAttempt 3 (by omega) (fun a => rfl)
  refine ⟨?_, h.2.1, h.2.2.1, h.2.2.2.1⟩
  rw [h.1]
  decide

/-- C7: a step with retry budget M whose body fails on each of the first
M-1 attempts and succeeds on attempt M leaves the Run successful (not
fatal), having invoked the body at attempts 1, ..., M, and exactly the
final successful attempt's buffered writes are committed — no failed
attempt's buffered writes appear in the outcome.  The witness instantiates
this at a flaky_service run that succeeds on attempt 3 of 3 with
result = "SUCCESS". -/
theorem retry_eventual_success_commits_only_final (σ : Type)
    (body : Nat → Attempt σ) (M : Nat) (hM : 1 ≤ M)
    (hfail : ∀ a, a < M → (body a).succeeded = false)
    (hsucc : (body M).succeeded = true) :
    retryRun body M = (.succeeded M (body M).buffered, List.range' 1 M) ∧
    runFailsFatally (retryRun body M) = false ∧
    committedWrites (retryRun body M).1 = some (body M).buffered := by
  obtain ⟨n, rfl⟩ : ∃ n, M = n + 1 := ⟨M - 1, by omega⟩
  have h : retryRun body (n + 1) =
      (.succeeded (n + 1) (body (n + 1)).buffered, List.range' 1 (n + 1)) :=
    retryGo_eventually_succeeds body (n + 1) hfail hsucc n 1 (by omega)
  refine ⟨h, ?_, ?_⟩
  · rw [h]
    rfl
  · rw [h]
    rfl

/-- C7 witness: flaky_service failing on attempts 1 and 2 and succeeding
on attempt 3: the Run succeeds and commits exactly result = "SUCCESS". -/
theorem retry_eventual_success_commits_only_final_witness :
    retryRun RetryFlow.flakyEventualAttempt 3 =
      (.succeeded 3 (some "SUCCESS"), [1, 2, 3]) ∧
    runFailsFatally (retryRun RetryFlow.flakyEventualAttempt 3) = false ∧
    committedWrites (retryRun RetryFlow.flakyEventualAttempt 3).1 =
      some (some "SUCCESS") := by
  have h := retry_eventual_success_commits_only_final (Option String)
    RetryFlow.flakyEventualAttempt 3 (by omega)
    (fun a ha => by simp [RetryFlow.flakyEventualAttempt, ha])
    (by decide)
  refine ⟨?_, h.2.1, ?_⟩
  · rw [h.1]
    decide
  · rw [h.2.2]
    decide

/-- C4: every foreach fan-out over a sequence of length K, run under any
physical completion order that schedules each branch exactly once, creates
exactly K branch instances, and the join input collection preserves the
source sequence's order; SquareNumbersFlow's default parameter "1,2,3,4,5"
parses to [1,2,3,4,5], creating 5 square branches whose join (here run
with the source order and with the reversed physical order) collects
squared_numbers = [1,4,9,16,25] in source order,
original_numbers = [1,2,3,4,5], and squared_sum = 55. -/
theorem foreach_creates_K_ordered_branches :
    (∀ (α σ : Type) (body : α → σ) (items : List α) (order : List Nat),
      order.Perm (List.range items.length) →
        (fanOutExec body items order).length = items.length ∧
        foreachJoin body items order = items.map body) ∧
    SquareNumbersFlow.numberListOf SquareNumbersFlow.numbersDefault =
      some [1, 2, 3, 4, 5] ∧
    (fanOutExec SquareNumbersFlow.square [1, 2, 3, 4, 5] [0, 1, 2, 3, 4]).length = 5 ∧
    SquareNumbersFlow.joinStep
      (foreachJoin SquareNumbersFlow.square [1, 2, 3, 4, 5] [0, 1, 2, 3, 4]) =
      ([1, 4, 9, 16, 25], [1, 2, 3, 4, 5], 55) ∧
    SquareNumbersFlow.joinStep
      (foreachJoin SquareNumbersFlow.square [1, 2, 3, 4, 5] [4, 3, 2, 1, 0]) =
      ([1, 4, 9, 16, 25], [1, 2, 3, 4, 5], 55) := by
  refine ⟨?_, ?_, ?_, ?_, ?_⟩
  · intro α σ body items order hperm
    exact ⟨fanOutExec_length body items order hperm,
      foreachJoin_eq_map body items order
        (perm_range_cover order items.length hperm)⟩
  · decide
  · decide
  · decide
  · decide

/-- C4 witness: the general part applied to SquareNumbersFlow's square
branch over [1,2,3,4,5] with the physical completion order [2,0,4,1,3]:
5 branch instances, and the join collection is in source order. -/
theorem foreach_creates_K_ordered_branches_witness :
    (fanOutExec SquareNumbersFlow.square [1, 2, 3, 4, 5] [2, 0, 4, 1, 3]).length = 5 ∧
    foreachJoin SquareNumbersFlow.square [1, 2, 3, 4, 5] [2, 0, 4, 1, 3] =
      [(1, 1), (2, 4), (3, 9), (4, 16), (5, 25)] := by
  have h := foreach_creates_K_ordered_branches.1 Int (Int × Int)
    SquareNumbersFlow.square [1, 2, 3, 4, 5] [2, 0, 4, 1, 3] (by decide)
  refine ⟨h.1, ?_⟩
  rw [h.2]
  decide

/-- C5: for every Run of a flow with a split into N branches, the join
input collection has exactly N elements, in branch declaration order, and
it is identical under any two physical completion orders; in particular
ParallelOpsFlow's two branches produce identical join inputs under the
physical orders [0,1] and [1,0], namely the add_constant binding then the
multiply_constant binding. -/
theorem split_join_inputs_deterministic :
    (∀ (σ τ : Type) (branches : List (σ → τ)) (base : σ) (o1 o2 : List Nat),
      o1.Perm (List.range branches.length) →
      o2.Perm (List.range branches.length) →
        (splitJoinInputs branches base o1).length = branches.length ∧
        splitJoinInputs branches base o1 =
          branches.map (fun b => some (b base)) ∧
        splitJoinInputs branches base o1 = splitJoinInputs branches base o2) ∧
    splitJoinInputs ParallelOpsFlow.branches ParallelOpsFlow.startStore [0, 1] =
      splitJoinInputs ParallelOpsFlow.branches ParallelOpsFlow.startStore [1, 0] ∧
    splitJoinInputs ParallelOpsFlow.branches ParallelOpsFlow.startStore [1, 0] =
      [some (ParallelOpsFlow.add_constant ParallelOpsFlow.startStore),
       some (ParallelOpsFlow.multiply_constant ParallelOpsFlow.startStore)] := by
  have hgen : ∀ (σ τ : Type) (branches : List (σ → τ)) (base : σ) (o : List Nat),
      o.Perm (List.range branches.length) →
        splitJoinInputs branches base o = branches.map (fun b => some (b base)) := by
    intro σ τ branches base o hperm
    exact joinInputs_fanOutExec (fun b => b base) branches o
      (perm_range_cover o branches.length hperm)
  refine ⟨?_, ?_, ?_⟩
  · intro σ τ branches base o1 o2 h1 h2
    refine ⟨?_, hgen σ τ branches base o1 h1, ?_⟩
    · rw [hgen σ τ branches base o1 h1]
      simp
    · rw [hgen σ τ branches base o1 h1, hgen σ τ branches base o2 h2]
  · decide
  · decide

/-- C5 witness: the general part applied to ParallelOpsFlow's declared
branches with the two opposite physical completion orders: two join
inputs, in declaration order, identical for both orders. -/
theorem split_join_inputs_deterministic_witness :
    (splitJoinInputs ParallelOpsFlow.branches ParallelOpsFlow.startStore [0, 1]).length = 2 ∧
    splitJoinInputs ParallelOpsFlow.branches ParallelOpsFlow.startStore [0, 1] =
      ParallelOpsFlow.branches.map (fun b => some (b ParallelOpsFlow.startStore)) ∧
    splitJoinInputs ParallelOpsFlow.branches ParallelOpsFlow.startStore [0, 1] =
      splitJoinInputs ParallelOpsFlow.branches ParallelOpsFlow.startStore [1, 0] :=
  (split_join_inputs_deterministic.1 Store (Option Store)
    ParallelOpsFlow.branches ParallelOpsFlow.startStore [0, 1] [1, 0]
    (by decide) (by decide))

/-- C6: an artifact written by a branch instance of a split is not visible
to any sibling instance before the join: a sibling's reads resolve only
its own overlay plus the pre-split base, so they are unchanged by the
write.  In ParallelOpsFlow (add branch = instance 0, multiply branch =
instance 1): after the add branch runs fully, the multiply branch still
reads none for constant and result while both see artifact = 10 from the
base; after both run, each sees only its own constant (5 vs 2) and result
(15 vs 20), and only the join sees both results, via its inputs. -/
theorem split_sibling_write_invisible :
    (∀ (st : SplitState) (i j : Nat) (k kr : String) (v : Int), j ≠ i →
      readArt (writeArt st j k v) i kr = readArt st i kr) ∧
    (∃ st1 final : SplitState,
      ParallelOpsFlow.runAddBranch ParallelOpsFlow.initSplit = some st1 ∧
      ParallelOpsFlow.runMultiplyBranch st1 = some final ∧
      readArt st1 1 "constant" = none ∧
      readArt st1 1 "result" = none ∧
      readArt st1 1 "artifact" = some 10 ∧
      readArt final 0 "constant" = some 5 ∧
      readArt final 1 "constant" = some 2 ∧
      readArt final 0 "result" = some 15 ∧
      readArt final 1 "result" = some 20 ∧
      readArt final 0 "constant" ≠ readArt final 1 "constant" ∧
      ParallelOpsFlow.join (final.overlays.getD 0 []) (final.overlays.getD 1 []) =
        some (15, 20, 35)) := by
  refine ⟨fun st i j k kr v hne => readArt_after_sibling_write st i j k kr v hne, ?_⟩
  refine ⟨{ base := [("artifact", 10)],
            overlays := [[("result", 15), ("constant", 5)], []] },
          { base := [("artifact", 10)],
            overlays := [[("result", 15), ("constant", 5)],
                         [("result", 20), ("constant", 2)]] }, ?_⟩
  decide

/-- C6 witness: the isolation part applied concretely: the add branch's
write of constant into overlay 0 leaves the multiply branch's read of
constant unchanged (still unset). -/
theorem split_sibling_write_invisible_witness :
    readArt (writeArt ParallelOpsFlow.initSplit 0 "constant" 5) 1 "constant" =
      readArt ParallelOpsFlow.initSplit 1 "constant" ∧
    readArt (writeArt ParallelOpsFlow.initSplit 0 "constant" 5) 1 "constant" = none := by
  have h := split_sibling_write_invisible.1 ParallelOpsFlow.initSplit 1 0
    "constant" "constant" 5 (by omega)
  refine ⟨h, ?_⟩
  rw [h]
  decide

/-- C2 counterexample: at the concrete input of empty CSV content, the
validation ValueError is raised inside process_csv but caught by its
except clause: the step records error_message = "The CSV file is empty",
propagates no error to the engine, and the Run completes instead of
ending failed. -/
theorem csv_empty_content_run_completes_counterexample :
    CSVProcessingFlow.validate_csv_content "" =
      some (.valueError "The CSV file is empty") ∧
    CSVProcessingFlow.process_csv (fun _ => []) "" =
      ({ CSVProcessingFlow.emptyCsvState with
          error_message := some "The CSV file is empty" }, none) ∧
    CSVProcessingFlow.csvRunFailed
      (CSVProcessingFlow.process_csv (fun _ => []) "") = false := by
  decide

/-- C2 amended: for every empty or whitespace-only CSV content, the
CSV-processing step body raises ValueError("The CSV file is empty") in
its validation, catches it, records it in the error_message artifact, and
the Run completes (the step always proceeds to end) rather than ending
failed. -/
theorem csv_empty_content_error_caught (parse : String → List (List String))
    (content : String) (h : pyStrip content = "") :
    CSVProcessingFlow.validate_csv_content content =
      some (.valueError "The CSV file is empty") ∧
    CSVProcessingFlow.process_csv parse content =
      ({ CSVProcessingFlow.emptyCsvState with
          error_message := some "The CSV file is empty" }, none) ∧
    CSVProcessingFlow.csvRunFailed
      (CSVProcessingFlow.process_csv parse content) = false := by
  have hv : CSVProcessingFlow.validate_csv_content content =
      some (.valueError "The CSV file is empty") := by
    simp [CSVProcessingFlow.validate_csv_content, h]
  refine ⟨hv, ?_, ?_⟩
  · simp [CSVProcessingFlow.process_csv, CSVProcessingFlow.process_csv_try, hv]
  · simp [CSVProcessingFlow.csvRunFailed, CSVProcessingFlow.process_csv,
      CSVProcessingFlow.process_csv_try, hv]

/-- C2 witness: whitespace-only content under a parser that would return a
row: the validation error is still raised, caught, and the Run completes. -/
theorem csv_empty_content_error_caught_witness :
    CSVProcessingFlow.validate_csv_content " \n " =
      some (.valueError "The CSV file is empty") ∧
    CSVProcessingFlow.csvRunFailed
      (CSVProcessingFlow.process_csv (fun _ => [["h"]]) " \n ") = false := by
  have h := csv_empty_content_error_caught (fun _ => [["h"]]) " \n " (by decide)
  exact ⟨h.1, h.2.2⟩

/-- C8 counterexample: a non-2xx HTTP status need not make generate_response
raise: raise_for_status raises only for 4xx/5xx, so at the concrete status
304 with a well-formed payload and parseable generated text the step body
returns the answer instead of raising. -/
theorem generate_response_non2xx_counterexample :
    PromptResponseFlow.generate_response
      (fun _ => some (.obj [("answer", .str "it works")]))
      (.response 304 (.obj [("response", .str "generated text")])) =
      .ok (.str "it works") ∧
    ¬(200 ≤ 304 ∧ 304 < 300) := by
  exact ⟨rfl, by omega⟩

/-- C8 amended: generate_response extracts the generated text from the
payload's response field, parses it as JSON and stores the parse's answer
field as the response artifact; and the step body raises — propagating to
the Run's failure handling — when the call fails in transport, when the
status is 4xx or 5xx (raise_for_status), when the generated text is not
valid JSON, or when the parse result lacks an answer field. -/
theorem generate_response_contract (loads : String → Option Json) (status : Nat)
    (fields : List (String × Json)) :
    (∀ s parsed answer, status < 400 ∨ 600 ≤ status →
      fields.lookup "response" = some (.str s) →
      loads s = some (.obj parsed) →
      parsed.lookup "answer" = some answer →
      PromptResponseFlow.generate_response loads (.response status (.obj fields)) =
        .ok answer) ∧
    (∀ msg, PromptResponseFlow.generate_response loads (.transportError msg) =
      .raised msg) ∧
    (400 ≤ status ∧ status < 600 → ∀ payload,
      PromptResponseFlow.generate_response loads (.response status payload) =
        .raised "HTTPError") ∧
    (∀ s, status < 400 ∨ 600 ≤ status →
      fields.lookup "response" = some (.str s) →
      loads s = none →
      PromptResponseFlow.generate_response loads (.response status (.obj fields)) =
        .raised "JSONDecodeError") ∧
    (∀ s parsed, status < 400 ∨ 600 ≤ status →
      fields.lookup "response" = some (.str s) →
      loads s = some (.obj parsed) →
      parsed.lookup "answer" = none →
      PromptResponseFlow.generate_response loads (.response status (.obj fields)) =
        .raised "KeyError") := by
  have hok : status < 400 ∨ 600 ≤ status →
      PromptResponseFlow.raiseForStatus status = false := by
    intro h
    simp only [PromptResponseFlow.raiseForStatus, decide_eq_false_iff_not]
    omega
  refine ⟨?_, ?_, ?_, ?_, ?_⟩
  · intro s parsed answer hst hresp hloads hans
    simp [PromptResponseFlow.generate_response, hok hst, hresp, hloads, hans]
  · intro msg
    rfl
  · intro hst payload
    have : PromptResponseFlow.raiseForStatus status = true := by
      simp only [PromptResponseFlow.raiseForStatus, decide_eq_true_eq]
      omega
    simp [PromptResponseFlow.generate_response, this]
  · intro s hst hresp hloads
    simp [PromptResponseFlow.generate_response, hok hst, hresp, hloads]
  · intro s parsed hst hresp hloads hans
    simp [PromptResponseFlow.generate_response, hok hst, hresp, hloads, hans]

/-- C8 witness: the amended contract at concrete inputs: a 200 response
with answer extracted; a transport error, a 500 status, unparseable text,
and a missing answer field each raise. -/
theorem generate_response_contract_witness :
    PromptResponseFlow.generate_response (fun _ => some (.obj [("answer", .num 7)]))
      (.response 200 (.obj [("response", .str "t")])) = .ok (.num 7) ∧
    PromptResponseFlow.generate_response (fun _ => none)
      (.transportError "timeout") = .raised "timeout" ∧
    PromptResponseFlow.generate_response (fun _ => none)
      (.response 500 (.obj [("response", .str "t")])) = .raised "HTTPError" ∧
    PromptResponseFlow.generate_response (fun _ => none)
      (.response 200 (.obj [("response", .str "t")])) = .raised "JSONDecodeError" ∧
    PromptResponseFlow.generate_response (fun _ => some (.obj []))
      (.response 200 (.obj [("response", .str "t")])) = .raised "KeyError" := by
  refine ⟨?_, ?_, ?_, ?_, ?_⟩
  · exact (generate_response_contract (fun _ => some (.obj [("answer", .num 7)]))
      200 [("response", .str "t")]).1 "t" [("answer", .num 7)] (.num 7)
      (by omega) rfl rfl rfl
  · exact (generate_response_contract (fun _ => none) 200 []).2.1 "timeout"
  · exact (generate_response_contract (fun _ => none) 500
      [("response", .str "t")]).2.2.1 (by omega) _
  · exact (generate_response_contract (fun _ => none) 200
      [("response", .str "t")]).2.2.2.1 "t" (by omega) rfl rfl
  · exact (generate_response_contract (fun _ => some (.obj [])) 200
      [("response", .str "t")]).2.2.2.2 "t" [] (by omega) rfl rfl rfl

/-- C9: for every student record, process_student produces a fresh record
whose name is the input name upper-cased and whose score is
min(score + 10, 100); hence the processed score never exceeds 100, and an
input score of at least 90 is clamped to exactly 100.  The input record
itself is copied (dict(self.input)), not mutated: the output is built from
a copy and the input value is untouched. -/
theorem process_student_transforms (s : Student) :
    StudentProcessingFlow.process_student s =
      { name := pyUpper s.name, score := min (s.score + 10) 100 } ∧
    (StudentProcessingFlow.process_student s).score ≤ 100 ∧
    (90 ≤ s.score → (StudentProcessingFlow.process_student s).score = 100) := by
  refine ⟨rfl, ?_, ?_⟩
  · show min (s.score + 10) 100 ≤ 100
    exact min_le_right _ _
  · intro h
    show min (s.score + 10) 100 = 100
    exact min_eq_right (by omega)

/-- C9 witness: a student with score 95 (≥ 90): the name is upper-cased
and the score is clamped to exactly 100. -/
theorem process_student_transforms_witness :
    StudentProcessingFlow.process_student { name := "ada lovelace", score := 95 } =
      { name := "ADA LOVELACE", score := 100 } ∧
    (StudentProcessingFlow.process_student
      { name := "ada lovelace", score := 95 }).score = 100 := by
  have h := process_student_transforms { name := "ada lovelace", score := 95 }
  refine ⟨?_, h.2.2 (by decide)⟩
  rw [h.1]
  decide

/-- C10: for a parsed CSV with header of length C and data rows r_1..r_n,
_check_rows_consistency returns row_count = n, inconsistent_rows = the
number of rows whose field count differs from C, min_cols = the minimum of
C and all row lengths and max_cols = the maximum of C and all row lengths;
hence min_cols ≤ C ≤ max_cols always, every row length lies between
min_cols and max_cols, and inconsistent_rows = 0 iff every data row has
exactly C fields. -/
theorem check_rows_consistency_accounting (header : List String)
    (rows : List (List String)) :
    CSVProcessingFlow.check_rows_consistency header rows =
      (rows.length,
       rows.countP (fun r => decide (r.length ≠ header.length)),
       (rows.map List.length).foldl min header.length,
       (rows.map List.length).foldl max header.length) ∧
    (CSVProcessingFlow.check_rows_consistency header rows).2.2.1 ≤ header.length ∧
    header.length ≤ (CSVProcessingFlow.check_rows_consistency header rows).2.2.2 ∧
    (∀ r ∈ rows,
      (CSVProcessingFlow.check_rows_consistency header rows).2.2.1 ≤ r.length ∧
      r.length ≤ (CSVProcessingFlow.check_rows_consistency header rows).2.2.2) ∧
    ((CSVProcessingFlow.check_rows_consistency header rows).2.1 = 0 ↔
      ∀ r ∈ rows, r.length = header.length) := by
  have h : CSVProcessingFlow.check_rows_consistency header rows =
      (rows.length,
       rows.countP (fun r => decide (r.length ≠ header.length)),
       (rows.map List.length).foldl min header.length,
       (rows.map List.length).foldl max header.length) := by
    have := checkRowsLoop_spec header.length rows 0 0 header.length header.length
    simpa [CSVProcessingFlow.check_rows_consistency] using this
  refine ⟨h, ?_, ?_, ?_, ?_⟩
  · rw [h]
    exact foldl_min_le_init _ _
  · rw [h]
    exact le_foldl_max_init _ _
  · intro r hr
    rw [h]
    exact ⟨foldl_min_le_mem _ _ _ (List.mem_map_of_mem List.length hr),
      le_foldl_max_mem _ _ _ (List.mem_map_of_mem List.length hr)⟩
  · rw [h]
    simp only [List.countP_eq_zero, decide_eq_true_eq, ne_eq, not_not]

/-- C10 witness: header of 2 columns and rows of lengths 2, 1, 3: three
rows, two inconsistent, min_cols = 1, max_cols = 3, the bounds hold for
the short row, and inconsistent_rows is nonzero. -/
theorem check_rows_consistency_accounting_witness :
    CSVProcessingFlow.check_rows_consistency ["a", "b"]
      [["x", "y"], ["x"], ["u", "v", "w"]] = (3, 2, 1, 3) ∧
    (CSVProcessingFlow.check_rows_consistency ["a", "b"]
      [["x", "y"], ["x"], ["u", "v", "w"]]).2.2.1 ≤ (["x"] : List String).length ∧
    ¬(CSVProcessingFlow.check_rows_consistency ["a", "b"]
      [["x", "y"], ["x"], ["u", "v", "w"]]).2.1 = 0 := by
  have h := check_rows_consistency_accounting ["a", "b"]
    [["x", "y"], ["x"], ["u", "v", "w"]]
  refine ⟨?_, (h.2.2.2.1 ["x"] (by decide)).1, ?_⟩
  · rw [h.1]
    decide
  · intro h0
    have := (h.2.2.2.2).mp h0 ["x"] (by decide)
    simp at this
